import Mathlib

/-!
Verification development for the connection-acceptance and transport-security
bridge of the thebestofcmu server, a shallow embedding of the `compat` and
`tls` submodules of `src/server/src/app.rs` together with the TLS identity
loading in `src/server/src/main.rs`.

Modelling conventions:
* `Poll` mirrors `std::task::Poll`; `Except IOError` mirrors `io::Result`.
* The rustls/tokio-rustls handshake future (`tokio_rustls::Accept`) is an
  external capability; it is modelled as a scripted operation that makes
  progress on each poll and, once its budget of pending polls is exhausted,
  resolves to its outcome (an established stream or an error).  The wrapped
  stream and the server configuration it was created from are carried along
  so that identity-sharing facts can be stated.
* The established encrypted stream (`tokio_rustls::server::TlsStream`) and the
  raw `async_std::net::TcpStream` are likewise external; their behaviour is
  abstracted as a record of operation functions over an opaque state type, so
  every theorem quantifies over all possible behaviours of the peer.
* Buffers (`tokio::io::ReadBuf`) are modelled as a list of filled bytes plus a
  total capacity; `advance` appends the bytes the inner read produced.
-/

namespace Thebestofcmu

/-- Decidable equality for `Except`, needed by the derived instances below. -/
instance {ε α : Type} [DecidableEq ε] [DecidableEq α] : DecidableEq (Except ε α) := fun x y =>
  match x, y with
  | Except.ok a, Except.ok b =>
      if h : a = b then isTrue (congrArg Except.ok h)
      else isFalse (fun hc => h (Except.ok.inj hc))
  | Except.ok _, Except.error _ => isFalse (fun hc => Except.noConfusion hc)
  | Except.error _, Except.ok _ => isFalse (fun hc => Except.noConfusion hc)
  | Except.error d, Except.error e =>
      if h : d = e then isTrue (congrArg Except.error h)
      else isFalse (fun hc => h (Except.error.inj hc))

/-- Mirror of `std::task::Poll`. -/
inductive Poll (α : Type) where
  | ready : α → Poll α
  | pending : Poll α
deriving DecidableEq, Repr

/-- Error classes relevant to the accept loop: the spec distinguishes
resource-exhaustion (transient) errors from other errors. -/
inductive IOErrorKind where
  | resourceExhausted : IOErrorKind
  | socketClosed : IOErrorKind
  | other : IOErrorKind
deriving DecidableEq, Repr

/-- Mirror of `std::io::Error`: an error kind plus a message. -/
structure IOError where
  kind : IOErrorKind
  msg : String
deriving DecidableEq, Repr

/-- Mirror of `tokio::io::ReadBuf`: the bytes filled so far and the total
capacity.  `initialize_unfilled` exposes `capacity - filled.length` bytes of
storage; `advance n` marks `n` more bytes as filled. -/
structure ReadBuf where
  filled : List Nat
  capacity : Nat
deriving DecidableEq, Repr

/-- Remaining room in a `ReadBuf` (the length of `initialize_unfilled`). -/
def ReadBuf.remaining (buf : ReadBuf) : Nat :=
  buf.capacity - buf.filled.length

/-- Advancing a `ReadBuf` past bytes that an inner read deposited. -/
def ReadBuf.advance (buf : ReadBuf) (bs : List Nat) : ReadBuf :=
  ⟨buf.filled ++ bs, buf.capacity⟩

/-- The server TLS identity (`Arc<rustls::ServerConfig>`), opaque; only its
identity matters for the sharing claims, so it is a tagged value. -/
structure ServerConfig where
  id : Nat
deriving DecidableEq, Repr

/-- Behaviour of an established encrypted stream
(`tokio_rustls::server::TlsStream<HyperStream>`), abstracted as the four
tokio `AsyncRead`/`AsyncWrite` operations over an opaque state type `σ`.
Each operation returns its poll result together with the successor state. -/
structure StreamOps (σ : Type) where
  poll_read : σ → ReadBuf → Poll (Except IOError Unit) × σ × ReadBuf
  poll_write : σ → List Nat → Poll (Except IOError Nat) × σ
  poll_flush : σ → Poll (Except IOError Unit) × σ
  poll_shutdown : σ → Poll (Except IOError Unit) × σ

/-- Behaviour of the raw `async_std::net::TcpStream`, abstracted the same
way.  `poll_read` receives the size of the caller's unfilled storage and
returns the bytes it deposited there; `poll_close` is async-std's name for
the shutdown operation. -/
structure TcpOps (τ : Type) where
  poll_read : τ → Nat → Poll (Except IOError (List Nat)) × τ
  poll_write : τ → List Nat → Poll (Except IOError Nat) × τ
  poll_flush : τ → Poll (Except IOError Unit) × τ
  poll_close : τ → Poll (Except IOError Unit) × τ

/-- Mirror of `compat::HyperStream`, the runtime-bridge adapter owning one raw
connection of type `τ`. -/
structure HyperStream (τ : Type) where
  tcp : τ
deriving DecidableEq, Repr

/-- `HyperStream::poll_read` (app.rs:228): one non-blocking read of the
underlying connection into the unfilled part of the caller's buffer
(`buf.initialize_unfilled()`), then `buf.advance(bytes)`.  Pending and errors
propagate unchanged (`task::ready!(...?)`). -/
def HyperStream.poll_read (ops : TcpOps τ) (s : HyperStream τ) (buf : ReadBuf) :
    Poll (Except IOError Unit) × HyperStream τ × ReadBuf :=
  match ops.poll_read s.tcp (buf.capacity - buf.filled.length) with
  | (Poll.pending, tcp2) => (Poll.pending, ⟨tcp2⟩, buf)
  | (Poll.ready (Except.error e), tcp2) => (Poll.ready (Except.error e), ⟨tcp2⟩, buf)
  | (Poll.ready (Except.ok bs), tcp2) =>
      (Poll.ready (Except.ok ()), ⟨tcp2⟩, ⟨buf.filled ++ bs, buf.capacity⟩)

/-- `HyperStream::poll_write` (app.rs:241): direct delegation. -/
def HyperStream.poll_write (ops : TcpOps τ) (s : HyperStream τ) (bytes : List Nat) :
    Poll (Except IOError Nat) × HyperStream τ :=
  match ops.poll_write s.tcp bytes with
  | (r, tcp2) => (r, ⟨tcp2⟩)

/-- `HyperStream::poll_flush` (app.rs:249): direct delegation. -/
def HyperStream.poll_flush (ops : TcpOps τ) (s : HyperStream τ) :
    Poll (Except IOError Unit) × HyperStream τ :=
  match ops.poll_flush s.tcp with
  | (r, tcp2) => (r, ⟨tcp2⟩)

/-- `HyperStream::poll_shutdown` (app.rs:253): delegates to async-std's
`poll_close`. -/
def HyperStream.poll_shutdown (ops : TcpOps τ) (s : HyperStream τ) :
    Poll (Except IOError Unit) × HyperStream τ :=
  match ops.poll_close s.tcp with
  | (r, tcp2) => (r, ⟨tcp2⟩)

/-- Mirror of `compat::HyperListener`: the listener's lazy `Incoming` sequence
of accept events, each a raw connection or an accept error.  An exhausted
script stands for "no connection pending yet" (async-std's `Incoming` never
yields `None`). -/
structure HyperListener (τ : Type) where
  incoming : List (Except IOError τ)
deriving DecidableEq, Repr

/-- `HyperListener::poll_accept` (app.rs:216): take the next accept event;
`task::ready!(poll_next).unwrap()?` surfaces an error event to the caller as
`Ready(Some(Err(e)))` and a connection as `Ready(Some(Ok(HyperStream(s))))`. -/
def HyperListener.poll_accept (l : HyperListener τ) :
    Poll (Option (Except IOError (HyperStream τ))) × HyperListener τ :=
  match l.incoming with
  | [] => (Poll.pending, l)
  | Except.error e :: rest => (Poll.ready (some (Except.error e)), ⟨rest⟩)
  | Except.ok stream :: rest => (Poll.ready (some (Except.ok ⟨stream⟩)), ⟨rest⟩)

/-- Scripted model of the handshake future `tokio_rustls::Accept`: it records
the configuration and wrapped stream it was built from, how many more polls
report pending, and the final outcome (established stream or handshake
error). -/
structure Accept (ι σ : Type) where
  config : ServerConfig
  inner : ι
  stepsLeft : Nat
  outcome : Except IOError σ
deriving DecidableEq, Repr

/-- Polling the handshake future: progress is made in place, and the poll
that exhausts the pending budget resolves to the recorded outcome.  The real
`tokio_rustls` future is consumed by its first resolution and must not be
polled again afterwards (its `MidHandshake` becomes `End`, which panics when
polled); polls past the first resolution are therefore a don't-care region
of this total model, and the theorems below remain true under any other
choice of value for that region — none of them asserts what a
post-resolution poll returns. -/
def Accept.poll : Accept ι σ → Poll (Except IOError σ) × Accept ι σ
  | ⟨cfg, inner, 0, outc⟩ => (Poll.ready outc, ⟨cfg, inner, 0, outc⟩)
  | ⟨cfg, inner, Nat.succ n, outc⟩ => (Poll.pending, ⟨cfg, inner, n, outc⟩)

/-- Mirror of `tls::State` (app.rs:271). -/
inductive State (ι σ : Type) where
  | handshaking : Accept ι σ → State ι σ
  | streaming : σ → State ι σ
deriving DecidableEq, Repr

/-- Mirror of `tls::TlsStream` (app.rs:279): a single mutable state tag. -/
structure TlsStream (ι σ : Type) where
  state : State ι σ
deriving DecidableEq, Repr

/-- The TLS engine capability: from a configuration and a wrapped stream,
`tokio_rustls::TlsAcceptor::from(config).accept(stream)` produces a handshake
operation; its script (pending budget and outcome) is the engine's choice. -/
def TlsEngine (τ σ : Type) : Type :=
  ServerConfig → HyperStream τ → Nat × Except IOError σ

/-- `TlsStream::new` (app.rs:284): build the handshake future from the
configuration and the accepted stream, and start in `Handshaking`. -/
def TlsStream.new (eng : TlsEngine τ σ) (stream : HyperStream τ) (config : ServerConfig) :
    TlsStream (HyperStream τ) σ :=
  ⟨State.handshaking ⟨config, stream, (eng config stream).1, (eng config stream).2⟩⟩

/-- `TlsStream::poll_read` (app.rs:293): while `Handshaking`, drive the
handshake one step (`ready!` propagates pending, the in-place progress kept);
on success, perform the requested read on the established stream and only
then overwrite the state with `Streaming`; on handshake error, return the
error and leave the state alone.  While `Streaming`, delegate. -/
def TlsStream.poll_read (ops : StreamOps σ) (s : TlsStream ι σ) (buf : ReadBuf) :
    Poll (Except IOError Unit) × TlsStream ι σ × ReadBuf :=
  match s.state with
  | State.handshaking accept =>
      match Accept.poll accept with
      | (Poll.pending, a2) => (Poll.pending, ⟨State.handshaking a2⟩, buf)
      | (Poll.ready (Except.error err), a2) =>
          (Poll.ready (Except.error err), ⟨State.handshaking a2⟩, buf)
      | (Poll.ready (Except.ok stream), _) =>
          match ops.poll_read stream buf with
          | (result, stream2, buf2) => (result, ⟨State.streaming stream2⟩, buf2)
  | State.streaming stream =>
      match ops.poll_read stream buf with
      | (result, stream2, buf2) => (result, ⟨State.streaming stream2⟩, buf2)

/-- `TlsStream::poll_write` (app.rs:314): same state machine as `poll_read`. -/
def TlsStream.poll_write (ops : StreamOps σ) (s : TlsStream ι σ) (bytes : List Nat) :
    Poll (Except IOError Nat) × TlsStream ι σ :=
  match s.state with
  | State.handshaking accept =>
      match Accept.poll accept with
      | (Poll.pending, a2) => (Poll.pending, ⟨State.handshaking a2⟩)
      | (Poll.ready (Except.error err), a2) =>
          (Poll.ready (Except.error err), ⟨State.handshaking a2⟩)
      | (Poll.ready (Except.ok stream), _) =>
          match ops.poll_write stream bytes with
          | (result, stream2) => (result, ⟨State.streaming stream2⟩)
  | State.streaming stream =>
      match ops.poll_write stream bytes with
      | (result, stream2) => (result, ⟨State.streaming stream2⟩)

/-- `TlsStream::poll_flush` (app.rs:333): unconditional success while
`Handshaking`, delegation while `Streaming`. -/
def TlsStream.poll_flush (ops : StreamOps σ) (s : TlsStream ι σ) :
    Poll (Except IOError Unit) × TlsStream ι σ :=
  match s.state with
  | State.handshaking accept => (Poll.ready (Except.ok ()), ⟨State.handshaking accept⟩)
  | State.streaming stream =>
      match ops.poll_flush stream with
      | (result, stream2) => (result, ⟨State.streaming stream2⟩)

/-- `TlsStream::poll_shutdown` (app.rs:340): unconditional success while
`Handshaking`, delegation while `Streaming`. -/
def TlsStream.poll_shutdown (ops : StreamOps σ) (s : TlsStream ι σ) :
    Poll (Except IOError Unit) × TlsStream ι σ :=
  match s.state with
  | State.handshaking accept => (Poll.ready (Except.ok ()), ⟨State.handshaking accept⟩)
  | State.streaming stream =>
      match ops.poll_shutdown stream with
      | (result, stream2) => (result, ⟨State.streaming stream2⟩)

/-- Whether a `TlsStream` has reached the `Streaming` state. -/
def TlsStream.isStreaming : TlsStream ι σ → Bool
  | ⟨State.streaming _⟩ => true
  | ⟨State.handshaking _⟩ => false

/-- One call a caller can issue against the stream's `AsyncRead`/`AsyncWrite`
surface. -/
inductive Op where
  | read : ReadBuf → Op
  | write : List Nat → Op
  | flush : Op
  | shutdown : Op
deriving DecidableEq, Repr

/-- Whether an `Op` is a read or a write. -/
def Op.isRW : Op → Bool
  | Op.read _ => true
  | Op.write _ => true
  | Op.flush => false
  | Op.shutdown => false

/-- Summary of what one call returned to the caller. -/
inductive OpResult where
  | pending : OpResult
  | readOk : ReadBuf → OpResult
  | writeOk : Nat → OpResult
  | flushOk : OpResult
  | shutdownOk : OpResult
  | ioError : IOError → OpResult
deriving DecidableEq, Repr

/-- Issue one call against a `TlsStream`, yielding the observed result and the
successor stream. -/
def TlsStream.step (ops : StreamOps σ) (s : TlsStream ι σ) : Op → OpResult × TlsStream ι σ
  | Op.read buf =>
      match TlsStream.poll_read ops s buf with
      | (Poll.pending, s2, _) => (OpResult.pending, s2)
      | (Poll.ready (Except.ok _), s2, buf2) => (OpResult.readOk buf2, s2)
      | (Poll.ready (Except.error e), s2, _) => (OpResult.ioError e, s2)
  | Op.write bytes =>
      match TlsStream.poll_write ops s bytes with
      | (Poll.pending, s2) => (OpResult.pending, s2)
      | (Poll.ready (Except.ok n), s2) => (OpResult.writeOk n, s2)
      | (Poll.ready (Except.error e), s2) => (OpResult.ioError e, s2)
  | Op.flush =>
      match TlsStream.poll_flush ops s with
      | (Poll.pending, s2) => (OpResult.pending, s2)
      | (Poll.ready (Except.ok _), s2) => (OpResult.flushOk, s2)
      | (Poll.ready (Except.error e), s2) => (OpResult.ioError e, s2)
  | Op.shutdown =>
      match TlsStream.poll_shutdown ops s with
      | (Poll.pending, s2) => (OpResult.pending, s2)
      | (Poll.ready (Except.ok _), s2) => (OpResult.shutdownOk, s2)
      | (Poll.ready (Except.error e), s2) => (OpResult.ioError e, s2)

/-- Run a whole sequence of calls, returning the final stream. -/
def TlsStream.run (ops : StreamOps σ) : TlsStream ι σ → List Op → TlsStream ι σ
  | s, [] => s
  | s, op :: rest => TlsStream.run ops (TlsStream.step ops s op).2 rest

/-- The results each call of a sequence returned, in order. -/
def TlsStream.results (ops : StreamOps σ) : TlsStream ι σ → List Op → List OpResult
  | _, [] => []
  | s, op :: rest =>
      (TlsStream.step ops s op).1 :: TlsStream.results ops (TlsStream.step ops s op).2 rest

/-- The sequence of stream states visited by a sequence of calls, starting
with the initial state. -/
def TlsStream.statesTrace (ops : StreamOps σ) : TlsStream ι σ → List Op → List (TlsStream ι σ)
  | s, [] => [s]
  | s, op :: rest => s :: TlsStream.statesTrace ops (TlsStream.step ops s op).2 rest

/-- Number of `Handshaking`-to-`Streaming` transitions along a state trace. -/
def countHtoS : List (TlsStream ι σ) → Nat
  | s1 :: s2 :: rest =>
      (if s1.isStreaming = false ∧ s2.isStreaming = true then 1 else 0) + countHtoS (s2 :: rest)
  | _ => 0

/-- `TlsAcceptor::poll_accept` (app.rs:363): pull the next event from the
wrapped listener; wrap a successful accept in `TlsStream::new` with a clone
of the shared configuration; pass errors and end-of-sequence through. -/
def TlsAcceptor.poll_accept (eng : TlsEngine τ σ) (cfg : ServerConfig) (l : HyperListener τ) :
    Poll (Option (Except IOError (TlsStream (HyperStream τ) σ))) × HyperListener τ :=
  match HyperListener.poll_accept l with
  | (Poll.pending, l2) => (Poll.pending, l2)
  | (Poll.ready none, l2) => (Poll.ready none, l2)
  | (Poll.ready (some (Except.error e)), l2) => (Poll.ready (some (Except.error e)), l2)
  | (Poll.ready (some (Except.ok s)), l2) =>
      (Poll.ready (some (Except.ok (TlsStream.new eng s cfg))), l2)

/-- A connection as handed to hyper: either the bridged raw stream itself or
a TLS-wrapped one. -/
inductive Conn (τ σ : Type) where
  | plain : HyperStream τ → Conn τ σ
  | tls : TlsStream (HyperStream τ) σ → Conn τ σ
deriving DecidableEq, Repr

/-- The acceptor chosen by `App::start_server` (app.rs:71): the bare
`HyperListener` when no TLS identity is configured, a `TlsAcceptor` holding
the shared identity otherwise. -/
inductive Acceptor (τ : Type) where
  | plain : HyperListener τ → Acceptor τ
  | tls : ServerConfig → HyperListener τ → Acceptor τ
deriving DecidableEq, Repr

/-- The branch in `App::start_server` (app.rs:71-75) selecting the acceptor
from the optional TLS configuration. -/
def start_server_acceptor (tls : Option ServerConfig) (l : HyperListener τ) : Acceptor τ :=
  match tls with
  | some cfg => Acceptor.tls cfg l
  | none => Acceptor.plain l

/-- Accepting on whichever acceptor `start_server` chose, with the two
stream shapes injected into `Conn`. -/
def Acceptor.poll_accept (eng : TlsEngine τ σ) :
    Acceptor τ → Poll (Option (Except IOError (Conn τ σ))) × Acceptor τ
  | Acceptor.plain l =>
      match HyperListener.poll_accept l with
      | (Poll.pending, l2) => (Poll.pending, Acceptor.plain l2)
      | (Poll.ready none, l2) => (Poll.ready none, Acceptor.plain l2)
      | (Poll.ready (some (Except.error e)), l2) =>
          (Poll.ready (some (Except.error e)), Acceptor.plain l2)
      | (Poll.ready (some (Except.ok s)), l2) =>
          (Poll.ready (some (Except.ok (Conn.plain s))), Acceptor.plain l2)
  | Acceptor.tls cfg l =>
      match TlsAcceptor.poll_accept eng cfg l with
      | (Poll.pending, l2) => (Poll.pending, Acceptor.tls cfg l2)
      | (Poll.ready none, l2) => (Poll.ready none, Acceptor.tls cfg l2)
      | (Poll.ready (some (Except.error e)), l2) =>
          (Poll.ready (some (Except.error e)), Acceptor.tls cfg l2)
      | (Poll.ready (some (Except.ok t)), l2) =>
          (Poll.ready (some (Except.ok (Conn.tls t))), Acceptor.tls cfg l2)

/-- `load_certificates` (main.rs:128): file read and PEM parse failures
propagate; a successful parse yields the certificate list (the
`rustls::Certificate` wrapper is elided, certificates being opaque byte
blobs here). -/
def load_certificates (parsed : Except String (List (List Nat))) :
    Except String (List (List Nat)) :=
  match parsed with
  | Except.error e => Except.error e
  | Except.ok certs => Except.ok certs

/-- `load_private_key` (main.rs:137): from the parsed PKCS#8 key list, take
the first key with `keys.next()`; none found is an error, a second key found
is an error, exactly one is returned. -/
def load_private_key (parsed : Except String (List (List Nat))) :
    Except String (List Nat) :=
  match parsed with
  | Except.error e => Except.error e
  | Except.ok keys =>
      match keys with
      | [] => Except.error "No private keys found"
      | key :: rest =>
          match rest with
          | [] => Except.ok key
          | _ :: _ => Except.error "Too many keys"

/-- The client-certificate verifier chosen in main.rs:70-81: either rustls's
`NoClientAuth` or `AllowAnyAuthenticatedClient` over the added client
certificates. -/
inductive ClientVerifier where
  | noClientAuth : ClientVerifier
  | allowAuthenticated : List (List Nat) → ClientVerifier
deriving DecidableEq, Repr

/-- The loop `for client_cert in client_certs { cert_store.add(..)? }`
(main.rs:74-76): each certificate is added to the root store in turn and the
first failing add aborts.  `RootCertStore::add` itself is an external rustls
capability, passed in as `add`. -/
def add_all_certs (add : List Nat → Except String Unit) :
    List (List Nat) → Except String Unit
  | [] => Except.ok ()
  | c :: rest =>
      match add c with
      | Except.error e => Except.error e
      | Except.ok _ => add_all_certs add rest

/-- The `client_auth` future of main.rs:70-81: with client auth enabled the
client certificates are loaded and each added to a fresh root store, either
failure aborting; with it disabled the no-auth verifier is produced. -/
def build_client_auth (add : List Nat → Except String Unit) (clientAuth : Bool)
    (clientCertsParsed : Except String (List (List Nat))) :
    Except String ClientVerifier :=
  if clientAuth then
    match load_certificates clientCertsParsed with
    | Except.error e => Except.error e
    | Except.ok certs =>
        match add_all_certs add certs with
        | Except.error e => Except.error e
        | Except.ok _ => Except.ok (ClientVerifier.allowAuthenticated certs)
  else
    Except.ok ClientVerifier.noClientAuth

/-- The TLS branch of `async_main` (main.rs:64-95): when TLS is enabled the
server certificates and the private key are loaded and joined with the
client-auth verifier, any failure aborting startup; the joined results are
then handed to the fallible rustls step
`builder().with_safe_defaults().with_client_cert_verifier(..).with_single_cert(..)?`
(main.rs:86-89), modelled by the external capability `single_cert`, whose
own validation failure likewise aborts startup; only its success yields the
shared server configuration (the subsequent ALPN assignment is an
infallible field write on it).  With TLS disabled no identity is produced. -/
def setup_tls (add : List Nat → Except String Unit)
    (single_cert : ClientVerifier → List (List Nat) → List Nat → Except String ServerConfig)
    (enable clientAuth : Bool)
    (certsParsed keyParsed clientCertsParsed : Except String (List (List Nat))) :
    Except String (Option ServerConfig) :=
  if enable then
    match load_certificates certsParsed, load_private_key keyParsed,
        build_client_auth add clientAuth clientCertsParsed with
    | Except.error e, _, _ => Except.error e
    | Except.ok _, Except.error e, _ => Except.error e
    | Except.ok _, Except.ok _, Except.error e => Except.error e
    | Except.ok certs, Except.ok key, Except.ok verifier =>
        match single_cert verifier certs key with
        | Except.error e => Except.error e
        | Except.ok cfg => Except.ok (some cfg)
  else
    Except.ok none

/-- A concrete `RootCertStore::add` behaviour used to instantiate theorems:
it rejects the empty blob and accepts anything else. -/
def demoAddCert : List Nat → Except String Unit :=
  fun c => if c = [] then Except.error "bad der" else Except.ok ()

/-- A concrete `with_single_cert` behaviour: it rejects an empty private key
and otherwise produces a configuration tagged by the certificate count. -/
def demoSingleCert : ClientVerifier → List (List Nat) → List Nat → Except String ServerConfig :=
  fun _ certs key =>
    if key = [] then Except.error "invalid private key" else Except.ok ⟨certs.length⟩

/-- Definition written from the specification text for RuntimeBridgeStream
(spec 4.2): a read attempts exactly one non-blocking read of the underlying
connection into the caller's remaining buffer space, propagates would-block
and errors unchanged, and advances the buffer by exactly the bytes the
underlying read produced — no buffering of its own. -/
def bridgeReadSpec (ops : TcpOps τ) (s : HyperStream τ) (buf : ReadBuf) :
    Poll (Except IOError Unit) × HyperStream τ × ReadBuf :=
  let r := ops.poll_read s.tcp (ReadBuf.remaining buf)
  ((match r.1 with
    | Poll.pending => Poll.pending
    | Poll.ready (Except.error e) => Poll.ready (Except.error e)
    | Poll.ready (Except.ok _) => Poll.ready (Except.ok ())),
   ⟨r.2⟩,
   (match r.1 with
    | Poll.ready (Except.ok bs) => ReadBuf.advance buf bs
    | _ => buf))

/-- A concrete established-stream behaviour used to instantiate theorems:
reads deposit one byte 65, writes accept every byte, flush and shutdown
succeed, and the state counts the calls. -/
def natStreamOps : StreamOps Nat :=
  ⟨fun s buf => (Poll.ready (Except.ok ()), s + 1, ⟨buf.filled ++ [65], buf.capacity⟩),
   fun s bytes => (Poll.ready (Except.ok bytes.length), s + 1),
   fun s => (Poll.ready (Except.ok ()), s + 1),
   fun s => (Poll.ready (Except.ok ()), s + 1)⟩

/-- A concrete raw-connection behaviour: reads deposit at most one byte 66,
writes accept every byte, flush and close succeed. -/
def natTcpOps : TcpOps Nat :=
  ⟨fun t cap => (Poll.ready (Except.ok (List.replicate (min cap 1) 66)), t + 1),
   fun t bytes => (Poll.ready (Except.ok bytes.length), t + 1),
   fun t => (Poll.ready (Except.ok ()), t),
   fun t => (Poll.ready (Except.ok ()), t)⟩

/-- A transient, resource-exhaustion-class accept error. -/
def resourceExhaustedError : IOError :=
  ⟨IOErrorKind.resourceExhausted, "too many open files"⟩

/-- A listener whose next accept event is a transient error, followed by a
ready connection. -/
def listenerEx : HyperListener Nat :=
  ⟨[Except.error resourceExhaustedError, Except.ok 7]⟩

/-- A concrete stream already in the `Streaming` state. -/
def streamingNat : TlsStream Nat Nat :=
  ⟨State.streaming 0⟩

theorem isStreaming_step (ops : StreamOps σ) (s : TlsStream ι σ) (op : Op)
    (h : s.isStreaming = true) : (TlsStream.step ops s op).2.isStreaming = true := by
  obtain ⟨st⟩ := s
  cases st with
  | handshaking a => simp [TlsStream.isStreaming] at h
  | streaming est =>
    cases op with
    | read buf =>
      rcases h2 : ops.poll_read est buf with ⟨r, est2, buf2⟩
      rcases r with x | _
      · rcases x with u | e <;>
          simp [TlsStream.step, TlsStream.poll_read, h2, TlsStream.isStreaming]
      · simp [TlsStream.step, TlsStream.poll_read, h2, TlsStream.isStreaming]
    | write bytes =>
      rcases h2 : ops.poll_write est bytes with ⟨r, est2⟩
      rcases r with x | _
      · rcases x with u | e <;>
          simp [TlsStream.step, TlsStream.poll_write, h2, TlsStream.isStreaming]
      · simp [TlsStream.step, TlsStream.poll_write, h2, TlsStream.isStreaming]
    | flush =>
      rcases h2 : ops.poll_flush est with ⟨r, est2⟩
      rcases r with x | _
      · rcases x with u | e <;>
          simp [TlsStream.step, TlsStream.poll_flush, h2, TlsStream.isStreaming]
      · simp [TlsStream.step, TlsStream.poll_flush, h2, TlsStream.isStreaming]
    | shutdown =>
      rcases h2 : ops.poll_shutdown est with ⟨r, est2⟩
      rcases r with x | _
      · rcases x with u | e <;>
          simp [TlsStream.step, TlsStream.poll_shutdown, h2, TlsStream.isStreaming]
      · simp [TlsStream.step, TlsStream.poll_shutdown, h2, TlsStream.isStreaming]

theorem isStreaming_run (ops : StreamOps σ) (s : TlsStream ι σ) (l : List Op)
    (h : s.isStreaming = true) : (TlsStream.run ops s l).isStreaming = true := by
  induction l generalizing s with
  | nil => exact h
  | cons op rest ih => exact ih _ (isStreaming_step ops s op h)

theorem run_append (ops : StreamOps σ) (s : TlsStream ι σ) (l1 l2 : List Op) :
    TlsStream.run ops s (l1 ++ l2) = TlsStream.run ops (TlsStream.run ops s l1) l2 := by
  induction l1 generalizing s with
  | nil => rfl
  | cons op rest ih => simp [TlsStream.run, ih]

theorem statesTrace_shape (ops : StreamOps σ) (s : TlsStream ι σ) (l : List Op) :
    ∃ t, TlsStream.statesTrace ops s l = s :: t := by
  cases l with
  | nil => exact ⟨[], rfl⟩
  | cons op rest => exact ⟨TlsStream.statesTrace ops (TlsStream.step ops s op).2 rest, rfl⟩

theorem countHtoS_streaming (ops : StreamOps σ) (s : TlsStream ι σ) (l : List Op)
    (h : s.isStreaming = true) : countHtoS (TlsStream.statesTrace ops s l) = 0 := by
  induction l generalizing s with
  | nil => rfl
  | cons op rest ih =>
    obtain ⟨t, ht⟩ := statesTrace_shape ops (TlsStream.step ops s op).2 rest
    have heq : TlsStream.statesTrace ops s (op :: rest) =
        s :: (TlsStream.step ops s op).2 :: t := by
      simp [TlsStream.statesTrace, ht]
    have hcount : countHtoS (s :: (TlsStream.step ops s op).2 :: t) =
        (if s.isStreaming = false ∧ (TlsStream.step ops s op).2.isStreaming = true then 1 else 0)
          + countHtoS ((TlsStream.step ops s op).2 :: t) := rfl
    rw [heq, hcount, ← ht, ih _ (isStreaming_step ops s op h)]
    simp [h]

theorem countHtoS_le_one (ops : StreamOps σ) (s : TlsStream ι σ) (l : List Op) :
    countHtoS (TlsStream.statesTrace ops s l) ≤ 1 := by
  induction l generalizing s with
  | nil => simp [TlsStream.statesTrace, countHtoS]
  | cons op rest ih =>
    obtain ⟨t, ht⟩ := statesTrace_shape ops (TlsStream.step ops s op).2 rest
    have heq : TlsStream.statesTrace ops s (op :: rest) =
        s :: (TlsStream.step ops s op).2 :: t := by
      simp [TlsStream.statesTrace, ht]
    have hcount : countHtoS (s :: (TlsStream.step ops s op).2 :: t) =
        (if s.isStreaming = false ∧ (TlsStream.step ops s op).2.isStreaming = true then 1 else 0)
          + countHtoS ((TlsStream.step ops s op).2 :: t) := rfl
    rw [heq, hcount, ← ht]
    by_cases h2 : (TlsStream.step ops s op).2.isStreaming = true
    · rw [countHtoS_streaming ops _ rest h2]
      split <;> omega
    · have hzero :
          (if s.isStreaming = false ∧ (TlsStream.step ops s op).2.isStreaming = true
            then 1 else 0) = 0 := by
        simp [h2]
      rw [hzero]
      simpa using ih (TlsStream.step ops s op).2

/-- Claim C1: a read or write issued while `Handshaking` whose poll of the
handshake operation completes successfully makes the stream transition to
`Streaming` and immediately performs the requested read or write against the
newly established stream, returning exactly that operation's result — never a
spurious empty result. -/
theorem tls_transition_performs_requested_io (ops : StreamOps σ) (cfg : ServerConfig)
    (inner : ι) (est : σ) (buf : ReadBuf) (bytes : List Nat) :
    TlsStream.poll_read ops ⟨State.handshaking ⟨cfg, inner, 0, Except.ok est⟩⟩ buf =
      ((ops.poll_read est buf).1, ⟨State.streaming (ops.poll_read est buf).2.1⟩,
        (ops.poll_read est buf).2.2) ∧
    TlsStream.poll_write ops ⟨State.handshaking ⟨cfg, inner, 0, Except.ok est⟩⟩ bytes =
      ((ops.poll_write est bytes).1, ⟨State.streaming (ops.poll_write est bytes).2⟩) := by
  constructor
  · rcases h : ops.poll_read est buf with ⟨r, est2, buf2⟩
    simp [TlsStream.poll_read, Accept.poll, h]
  · rcases h : ops.poll_write est bytes with ⟨r, est2⟩
    simp [TlsStream.poll_write, Accept.poll, h]

/-- Claim C4: every read or write issued while the handshake is not yet
complete reports pending (would block) — never a zero-length success. -/
theorem tls_handshaking_rw_pend (ops : StreamOps σ) (cfg : ServerConfig) (inner : ι)
    (outc : Except IOError σ) (n : Nat) (l : List Op)
    (hrw : ∀ op ∈ l, Op.isRW op = true) (hlen : l.length ≤ n) :
    TlsStream.results ops ⟨State.handshaking ⟨cfg, inner, n, outc⟩⟩ l =
      List.replicate l.length OpResult.pending := by
  induction l generalizing n with
  | nil => rfl
  | cons op rest ih =>
    obtain ⟨m, rfl⟩ : ∃ m, n = m + 1 := by
      rcases n with _ | m
      · simp at hlen
      · exact ⟨m, rfl⟩
    have hstep : TlsStream.step ops ⟨State.handshaking ⟨cfg, inner, m + 1, outc⟩⟩ op =
        (OpResult.pending, ⟨State.handshaking ⟨cfg, inner, m, outc⟩⟩) := by
      cases op with
      | read buf => simp [TlsStream.step, TlsStream.poll_read, Accept.poll]
      | write bytes => simp [TlsStream.step, TlsStream.poll_write, Accept.poll]
      | flush => exact absurd (hrw Op.flush (by simp)) (by simp [Op.isRW])
      | shutdown => exact absurd (hrw Op.shutdown (by simp)) (by simp [Op.isRW])
    have hlen2 : rest.length ≤ m := by
      simp at hlen
      omega
    have hrw2 : ∀ op2 ∈ rest, Op.isRW op2 = true :=
      fun op2 h2 => hrw op2 (List.mem_cons_of_mem op h2)
    simp [TlsStream.results, hstep, List.replicate, ih m hrw2 hlen2]

/-- Claim C4 witness: two reads and writes against a stream whose handshake
needs two more polls both report pending. -/
theorem tls_handshaking_rw_pend_witness :
    TlsStream.results natStreamOps ⟨State.handshaking ⟨⟨1⟩, 0, 2, Except.ok 5⟩⟩
        [Op.read ⟨[], 4⟩, Op.write [9]] =
      List.replicate 2 OpResult.pending :=
  tls_handshaking_rw_pend natStreamOps ⟨1⟩ 0 (Except.ok 5) 2 [Op.read ⟨[], 4⟩, Op.write [9]]
    (by decide) (by decide)

/-- Claim C5: a read or write during whose call the handshake operation
completes with an error returns exactly that error to the caller. -/
theorem tls_handshake_error_surfaced_verbatim (ops : StreamOps σ) (cfg : ServerConfig)
    (inner : ι) (e : IOError) (buf : ReadBuf) (bytes : List Nat) :
    (TlsStream.poll_read ops ⟨State.handshaking ⟨cfg, inner, 0, Except.error e⟩⟩ buf).1 =
      Poll.ready (Except.error e) ∧
    (TlsStream.poll_write ops ⟨State.handshaking ⟨cfg, inner, 0, Except.error e⟩⟩ bytes).1 =
      Poll.ready (Except.error e) := by
  exact ⟨rfl, rfl⟩

/-- Claim C6: flush and shutdown while `Handshaking` succeed immediately for
every possible behaviour of the underlying stream and leave the state
unchanged; while `Streaming` they delegate directly to the established
stream. -/
theorem tls_flush_shutdown_semantics (ops : StreamOps σ) (a : Accept ι σ) (est : σ) :
    TlsStream.poll_flush ops ⟨State.handshaking a⟩ =
      (Poll.ready (Except.ok ()), ⟨State.handshaking a⟩) ∧
    TlsStream.poll_shutdown ops ⟨State.handshaking a⟩ =
      (Poll.ready (Except.ok ()), ⟨State.handshaking a⟩) ∧
    TlsStream.poll_flush ops (⟨State.streaming est⟩ : TlsStream ι σ) =
      ((ops.poll_flush est).1, ⟨State.streaming (ops.poll_flush est).2⟩) ∧
    TlsStream.poll_shutdown ops (⟨State.streaming est⟩ : TlsStream ι σ) =
      ((ops.poll_shutdown est).1, ⟨State.streaming (ops.poll_shutdown est).2⟩) := by
  refine ⟨rfl, rfl, ?_, ?_⟩
  · rcases h : ops.poll_flush est with ⟨r, est2⟩
    simp [TlsStream.poll_flush, h]
  · rcases h : ops.poll_shutdown est with ⟨r, est2⟩
    simp [TlsStream.poll_shutdown, h]

/-- Claim C10: when the handshake completes with an error during a read or
write, the state field is left unchanged — still the `Handshaking` variant
holding the already-completed handshake operation, with no transition to
`Streaming` and no closed or poisoned state — so by the `Handshaking` arm of
`poll_read`/`poll_write` the next read or write call dispatches on that same
completed operation again.  What that post-resolution poll of the consumed
future returns is outside the repository (the real `tokio_rustls` future
panics there) and is not asserted. -/
theorem tls_handshake_error_state_unchanged (ops : StreamOps σ) (cfg : ServerConfig)
    (inner : ι) (e : IOError) (buf : ReadBuf) (bytes : List Nat) :
    (TlsStream.poll_read ops ⟨State.handshaking ⟨cfg, inner, 0, Except.error e⟩⟩ buf).2.1 =
      ⟨State.handshaking ⟨cfg, inner, 0, Except.error e⟩⟩ ∧
    (TlsStream.poll_write ops ⟨State.handshaking ⟨cfg, inner, 0, Except.error e⟩⟩ bytes).2 =
      ⟨State.handshaking ⟨cfg, inner, 0, Except.error e⟩⟩ ∧
    ((TlsStream.poll_read ops ⟨State.handshaking ⟨cfg, inner, 0, Except.error e⟩⟩
        buf).2.1).isStreaming = false ∧
    ((TlsStream.poll_write ops ⟨State.handshaking ⟨cfg, inner, 0, Except.error e⟩⟩
        bytes).2).isStreaming = false := by
  exact ⟨rfl, rfl, rfl, rfl⟩

/-- Claim C2: for every sequence of read, write, flush and shutdown calls,
once the stream has become `Streaming` it never returns to `Handshaking`,
and the `Handshaking`-to-`Streaming` transition happens at most once during
the instance's lifetime. -/
theorem tls_streaming_forward_only (ops : StreamOps σ) (s : TlsStream ι σ) :
    (∀ l1 l2 : List Op, (TlsStream.run ops s l1).isStreaming = true →
      (TlsStream.run ops s (l1 ++ l2)).isStreaming = true) ∧
    (∀ l : List Op, countHtoS (TlsStream.statesTrace ops s l) ≤ 1) := by
  constructor
  · intro l1 l2 h
    rw [run_append]
    exact isStreaming_run ops _ l2 h
  · intro l
    exact countHtoS_le_one ops s l

/-- Claim C2 witness: a concrete stream in the `Streaming` state is still
streaming after further calls, and a concrete trace transitions at most
once. -/
theorem tls_streaming_forward_only_witness :
    (TlsStream.run natStreamOps streamingNat ([Op.flush] ++ [Op.shutdown])).isStreaming = true ∧
    countHtoS (TlsStream.statesTrace natStreamOps streamingNat [Op.flush, Op.read ⟨[], 4⟩]) ≤ 1 :=
  ⟨(tls_streaming_forward_only natStreamOps streamingNat).1 [Op.flush] [Op.shutdown] (by decide),
   (tls_streaming_forward_only natStreamOps streamingNat).2 [Op.flush, Op.read ⟨[], 4⟩]⟩

/-- Claim C3 counterexample: with the next accept event a resource-exhaustion
class error and a connection ready right behind it, `poll_accept` hands the
error to the caller instead of logging it and continuing to the following
connection. -/
theorem listener_transient_error_not_skipped :
    (HyperListener.poll_accept listenerEx).1 =
      Poll.ready (some (Except.error resourceExhaustedError)) ∧
    ¬ ∃ c : HyperStream Nat, (HyperListener.poll_accept listenerEx).1 =
      Poll.ready (some (Except.ok c)) := by
  constructor
  · rfl
  · rintro ⟨c, hc⟩
    simp [HyperListener.poll_accept, listenerEx, resourceExhaustedError] at hc

/-- Claim C3 amended: `HyperListener::poll_accept` treats every accept error
alike — transient or fatal, the error is surfaced to the caller as the next
item of the accepted-connection sequence, with no logging and no skipping,
and the listener itself never ends the sequence; a successful accept yields
the bridged connection. -/
theorem listener_surfaces_every_accept_error (e : IOError) (rest : List (Except IOError τ)) :
    HyperListener.poll_accept (⟨Except.error e :: rest⟩ : HyperListener τ) =
      (Poll.ready (some (Except.error e)), ⟨rest⟩) ∧
    ∀ c : τ, HyperListener.poll_accept (⟨Except.ok c :: rest⟩ : HyperListener τ) =
      (Poll.ready (some (Except.ok ⟨c⟩)), ⟨rest⟩) :=
  ⟨rfl, fun _ => rfl⟩

/-- Claim C7: with no TLS identity configured, `start_server` serves from the
bare listener and every accepted connection is the bridged raw stream itself;
with a TLS identity configured, every accepted connection is wrapped in a
`TlsStream` that starts in `Handshaking` and records the one shared server
configuration. -/
theorem start_server_acceptor_wrapping (eng : TlsEngine τ σ) (cfg : ServerConfig) (c : τ)
    (rest : List (Except IOError τ)) :
    start_server_acceptor none (⟨Except.ok c :: rest⟩ : HyperListener τ) =
      Acceptor.plain ⟨Except.ok c :: rest⟩ ∧
    (Acceptor.poll_accept eng (Acceptor.plain (⟨Except.ok c :: rest⟩ : HyperListener τ))).1 =
      Poll.ready (some (Except.ok (Conn.plain ⟨c⟩))) ∧
    start_server_acceptor (some cfg) (⟨Except.ok c :: rest⟩ : HyperListener τ) =
      Acceptor.tls cfg ⟨Except.ok c :: rest⟩ ∧
    (Acceptor.poll_accept eng (Acceptor.tls cfg (⟨Except.ok c :: rest⟩ : HyperListener τ))).1 =
      Poll.ready (some (Except.ok (Conn.tls (TlsStream.new eng ⟨c⟩ cfg)))) ∧
    (TlsStream.new eng (⟨c⟩ : HyperStream τ) cfg).state =
      State.handshaking ⟨cfg, ⟨c⟩, (eng cfg ⟨c⟩).1, (eng cfg ⟨c⟩).2⟩ :=
  ⟨rfl, rfl, rfl, rfl, rfl⟩

/-- Claim C8: the runtime bridge is a transparent adapter — a read performs
exactly one underlying non-blocking read into the caller's buffer and
advances it by exactly the bytes that read produced (pending and errors
propagated unchanged), matching the specification-level adapter, and write,
flush and shutdown delegate directly to the underlying connection. -/
theorem runtime_bridge_stream_transparent (ops : TcpOps τ) (s : HyperStream τ)
    (buf : ReadBuf) (bytes : List Nat) :
    HyperStream.poll_read ops s buf = bridgeReadSpec ops s buf ∧
    HyperStream.poll_write ops s bytes =
      ((ops.poll_write s.tcp bytes).1, ⟨(ops.poll_write s.tcp bytes).2⟩) ∧
    HyperStream.poll_flush ops s = ((ops.poll_flush s.tcp).1, ⟨(ops.poll_flush s.tcp).2⟩) ∧
    HyperStream.poll_shutdown ops s = ((ops.poll_close s.tcp).1, ⟨(ops.poll_close s.tcp).2⟩) ∧
    (∀ bs tcp2, ops.poll_read s.tcp (ReadBuf.remaining buf) = (Poll.ready (Except.ok bs), tcp2) →
      HyperStream.poll_read ops s buf =
        (Poll.ready (Except.ok ()), ⟨tcp2⟩, ⟨buf.filled ++ bs, buf.capacity⟩)) ∧
    (∀ tcp2, ops.poll_read s.tcp (ReadBuf.remaining buf) = (Poll.pending, tcp2) →
      HyperStream.poll_read ops s buf = (Poll.pending, ⟨tcp2⟩, buf)) := by
  refine ⟨?_, ?_, ?_, ?_, ?_, ?_⟩
  · rcases h : ops.poll_read s.tcp (buf.capacity - buf.filled.length) with ⟨r, tcp2⟩
    rcases r with x | _
    · rcases x with bs | e <;>
        simp [HyperStream.poll_read, bridgeReadSpec, ReadBuf.remaining, ReadBuf.advance, h]
    · simp [HyperStream.poll_read, bridgeReadSpec, ReadBuf.remaining, ReadBuf.advance, h]
  · rcases h : ops.poll_write s.tcp bytes with ⟨r, tcp2⟩
    simp [HyperStream.poll_write, h]
  · rcases h : ops.poll_flush s.tcp with ⟨r, tcp2⟩
    simp [HyperStream.poll_flush, h]
  · rcases h : ops.poll_close s.tcp with ⟨r, tcp2⟩
    simp [HyperStream.poll_shutdown, h]
  · intro bs tcp2 h
    simp only [ReadBuf.remaining] at h
    simp [HyperStream.poll_read, h]
  · intro tcp2 h
    simp only [ReadBuf.remaining] at h
    simp [HyperStream.poll_read, h]

/-- Claim C8 witness: on a concrete connection whose read produces one byte,
the bridged read succeeds and advances the buffer by exactly that byte. -/
theorem runtime_bridge_stream_transparent_witness :
    HyperStream.poll_read natTcpOps ⟨0⟩ ⟨[], 4⟩ =
      (Poll.ready (Except.ok ()), ⟨1⟩, ⟨[66], 4⟩) :=
  (runtime_bridge_stream_transparent natTcpOps ⟨0⟩ ⟨[], 4⟩ []).2.2.2.2.1 [66] 1 (by decide)

/-- Claim C9: with TLS enabled, loading the server identity fails with a
descriptive error unless the private-key file parses to exactly one PKCS#8
key that rustls then accepts — zero parsed keys and more than one parsed key
are errors, a certificate parsing failure likewise aborts startup, a key or
chain rejected by the fallible `with_single_cert` validation aborts as well,
and startup succeeds exactly when every step succeeds. -/
theorem tls_identity_requires_exactly_one_key
    (add : List Nat → Except String Unit)
    (single_cert : ClientVerifier → List (List Nat) → List Nat → Except String ServerConfig)
    (clientAuth : Bool) :
    load_private_key (Except.ok ([] : List (List Nat))) =
      Except.error "No private keys found" ∧
    (∀ k : List Nat, load_private_key (Except.ok [k]) = Except.ok k) ∧
    (∀ k1 k2 ks, load_private_key (Except.ok (k1 :: k2 :: ks)) =
      Except.error "Too many keys") ∧
    (∀ e, load_private_key (Except.error e) = Except.error e) ∧
    (∀ e keyParsed clientCertsParsed, ∃ e2,
      setup_tls add single_cert true clientAuth (Except.error e) keyParsed
        clientCertsParsed = Except.error e2) ∧
    (∀ certs e clientCertsParsed, ∃ e2,
      setup_tls add single_cert true clientAuth (Except.ok certs) (Except.error e)
        clientCertsParsed = Except.error e2) ∧
    (∀ certs clientCertsParsed, ∃ e2,
      setup_tls add single_cert true clientAuth (Except.ok certs)
        (Except.ok ([] : List (List Nat))) clientCertsParsed = Except.error e2) ∧
    (∀ certs k1 k2 ks clientCertsParsed, ∃ e2,
      setup_tls add single_cert true clientAuth (Except.ok certs)
        (Except.ok (k1 :: k2 :: ks)) clientCertsParsed = Except.error e2) ∧
    (∀ certs k e, single_cert ClientVerifier.noClientAuth certs k = Except.error e →
      ∃ e2, setup_tls add single_cert true false (Except.ok certs) (Except.ok [k])
        (Except.ok []) = Except.error e2) ∧
    (∀ certs k cfg, single_cert ClientVerifier.noClientAuth certs k = Except.ok cfg →
      setup_tls add single_cert true false (Except.ok certs) (Except.ok [k])
        (Except.ok []) = Except.ok (some cfg)) := by
  refine ⟨rfl, fun k => rfl, fun k1 k2 ks => rfl, fun e => rfl, ?_, ?_, ?_, ?_, ?_, ?_⟩
  · intro e keyParsed clientCertsParsed
    exact ⟨e, rfl⟩
  · intro certs e clientCertsParsed
    exact ⟨e, rfl⟩
  · intro certs clientCertsParsed
    exact ⟨"No private keys found", rfl⟩
  · intro certs k1 k2 ks clientCertsParsed
    exact ⟨"Too many keys", rfl⟩
  · intro certs k e h
    exact ⟨e, by
      simp [setup_tls, load_certificates, load_private_key, build_client_auth, h]⟩
  · intro certs k cfg h
    simp [setup_tls, load_certificates, load_private_key, build_client_auth, h]

/-- Claim C9 witness: with concrete rustls behaviours, a parsed single key
that rustls rejects still aborts startup, and an accepted one yields the
shared identity. -/
theorem tls_identity_requires_exactly_one_key_witness :
    (∃ e2, setup_tls demoAddCert demoSingleCert true false (Except.ok [[1]])
      (Except.ok [([] : List Nat)]) (Except.ok []) = Except.error e2) ∧
    setup_tls demoAddCert demoSingleCert true false (Except.ok [[1]])
      (Except.ok [[2]]) (Except.ok []) = Except.ok (some ⟨1⟩) :=
  ⟨(tls_identity_requires_exactly_one_key demoAddCert demoSingleCert
        false).2.2.2.2.2.2.2.2.1 [[1]] [] "invalid private key" (by decide),
   (tls_identity_requires_exactly_one_key demoAddCert demoSingleCert
        false).2.2.2.2.2.2.2.2.2 [[1]] [2] ⟨1⟩ (by decide)⟩

end Thebestofcmu
